import Mathlib

/-!
# Verification of `generate_factor_flows.py` (USEEIO factor-flow generator)

Shallow embedding of the computational core of the script: the dollar-flow
accounting (`calculate_dollar_flows`), the per-indicator factor-flow
accounting (`calculate_factor_flows`), the per-sector direct factor totals
(`calculate_sector_totals`), and the `main`-level assembly of a flow-type
record.

Modelling conventions:
* Python floats are modelled as exact rationals (`ℚ`); the accounting
  identities claimed "within floating-point tolerance" are settled against
  this exact model, with explicit error bounds where the source's decimal
  rounding (`round(v, k)`) intervenes.
* `round(v, k)` is modelled by `pyRound v k`, round-half-to-even on the
  `k`-th decimal, which is Python 3 `round` semantics on exact decimals.
* pandas DataFrames indexed by indicator display name (`D`, `N`) are
  modelled as association lists from the name to the row (a function from
  sector index to value); `.loc` lookup is `List.lookup`.
* numpy matrices `A` and the vector `x` are modelled as functions on
  sector indices; loops `for i in range(n)` become `List.range n` /
  `Finset.range n`.
* `print` diagnostics are modelled as an explicit list of `Warning` values
  returned alongside the result.
* Python's stable `list.sort(key=lambda x: -x['value'])` is modelled by
  `List.mergeSort` (a stable merge sort) with the descending comparison
  on `value`.
-/

/-- Round-half-to-even to the nearest integer (Python 3 `round(q)` on an
exact rational). -/
def roundHalfEven (q : ℚ) : ℤ :=
  if q - ⌊q⌋ < 1/2 then ⌊q⌋
  else if 1/2 < q - ⌊q⌋ then ⌊q⌋ + 1
  else if ⌊q⌋ % 2 = 0 then ⌊q⌋ else ⌊q⌋ + 1

/-- Python `round(q, k)`: round-half-to-even at the `k`-th decimal place. -/
def pyRound (q : ℚ) (k : ℕ) : ℚ :=
  (roundHalfEven (q * 10 ^ k) : ℚ) / 10 ^ k

/-- One edge of a flow list: the Python dict `{'from': i, 'to': j, 'value': v}`. -/
structure FlowEdge where
  fromId : ℕ
  toId : ℕ
  value : ℚ
deriving DecidableEq

/-- The per-indicator configuration from the `KEY_INDICATORS` table; the
display strings (`unit`, `unit_display`, `group`, `color`) are serialization
metadata not used by the accounting core and are omitted. -/
structure IndicatorConfig where
  code : String
  scale : ℚ
  threshold_pct : ℚ
deriving DecidableEq

/-- The `KEY_INDICATORS` configuration table, keyed by indicator display
name, with each indicator's `code`, `scale` and `threshold_pct`. -/
def KEY_INDICATORS : List (String × IndicatorConfig) :=
  [("Greenhouse Gases", ⟨"GHG", 1 / 10 ^ 9, 1 / 10 ^ 4⟩),
   ("Value Added", ⟨"VADD", 1 / 10 ^ 9, 1 / 10 ^ 4⟩),
   ("Jobs Supported", ⟨"JOBS", 1 / 10 ^ 3, 1 / 10 ^ 4⟩),
   ("Energy Use", ⟨"ENRG", 1 / 10 ^ 6, 1 / 10 ^ 4⟩),
   ("Freshwater withdrawals", ⟨"WATR", 1 / 10 ^ 9, 1 / 10 ^ 4⟩),
   ("Land use", ⟨"LAND", 1 / 10 ^ 9, 1 / 10 ^ 4⟩),
   ("Commercial Municipal Solid Waste", ⟨"CMSW", 1 / 10 ^ 9, 1 / 10 ^ 4⟩),
   ("Commercial Construction and Demolition Debris", ⟨"CCDD", 1 / 10 ^ 9, 1 / 10 ^ 4⟩),
   ("Commercial RCRA Hazardous Waste", ⟨"CRHW", 1 / 10 ^ 6, 1 / 10 ^ 4⟩),
   ("Smog Formation Potential", ⟨"SMOG", 1 / 10 ^ 6, 1 / 10 ^ 4⟩),
   ("Human Health - Respiratory Effects", ⟨"HRSP", 1 / 10 ^ 6, 1 / 10 ^ 4⟩),
   ("Acidification Potential", ⟨"ACID", 1 / 10 ^ 6, 1 / 10 ^ 4⟩)]

/-- The loaded USEEIO tables: `n` sectors, technical-coefficient matrix `A`,
output vector `x` (raw currency units), and the indicator-name-indexed
tables `D` (direct intensities) and `N` (total multipliers). -/
structure IOData where
  n : ℕ
  A : ℕ → ℕ → ℚ
  x : ℕ → ℚ
  D : List (String × (ℕ → ℚ))
  N : List (String × (ℕ → ℚ))

/-- Diagnostics printed by `calculate_factor_flows`. -/
inductive Warning where
  | notFoundInD : Warning
  | notFoundInN : Warning
deriving DecidableEq

/-- Descending-by-value comparison used for `flows.sort(key=lambda x: -x['value'])`. -/
def flowLe (a b : FlowEdge) : Bool := decide (b.value ≤ a.value)

/-- Python's stable sort by `-value`: stable merge sort, descending in `value`. -/
def sort_flows (l : List FlowEdge) : List FlowEdge := l.mergeSort flowLe

/-! ## `calculate_dollar_flows` -/

/-- `all_flows_matrix[i, j] = A[i, j] * x[j] / 1e9` (dollars in billions). -/
def all_flows_matrix (data : IOData) (i j : ℕ) : ℚ :=
  data.A i j * data.x j / 10 ^ 9

/-- A sector's dollar account (`sector_accounts[j]` in `calculate_dollar_flows`). -/
structure DollarAccount where
  total_output : ℚ
  intermediate_inputs : ℚ
  intermediate_sales : ℚ
  value_added : ℚ
  final_demand : ℚ
deriving DecidableEq

/-- The dollar account of sector `j`: column/row sums of `all_flows_matrix`
and the derived `value_added` / `final_demand`, each stored `round(·, 4)`. -/
def dollar_account (data : IOData) (j : ℕ) : DollarAccount :=
  let total_output := data.x j / 10 ^ 9
  let intermediate_inputs := ∑ i ∈ Finset.range data.n, all_flows_matrix data i j
  let intermediate_sales := ∑ k ∈ Finset.range data.n, all_flows_matrix data j k
  let value_added := total_output - intermediate_inputs
  let final_demand := total_output - intermediate_sales
  { total_output := pyRound total_output 4
    intermediate_inputs := pyRound intermediate_inputs 4
    intermediate_sales := pyRound intermediate_sales 4
    value_added := pyRound value_added 4
    final_demand := pyRound final_demand 4 }

/-- The unsorted dollar edge list: the double loop over `(i, j)` appending
`{'from': i, 'to': j, 'value': round(value, 3)}` whenever `value >= threshold`. -/
def dollar_flows_raw (data : IOData) (threshold : ℚ) : List FlowEdge :=
  (List.range data.n).flatMap fun i =>
    ((List.range data.n).filter fun j =>
        decide (threshold ≤ all_flows_matrix data i j)).map
      fun j => ⟨i, j, pyRound (all_flows_matrix data i j) 3⟩

/-- Result of `calculate_dollar_flows`: the sorted edge list and the
per-sector account mapping. -/
structure DollarResult where
  flows : List FlowEdge
  accounts : List (ℕ × DollarAccount)
deriving DecidableEq

/-- `calculate_dollar_flows(data, threshold)`: build all flows, the sector
accounts, keep flows above `threshold`, and sort descending by value.
No truncation is applied to the dollar flow list. -/
def calculate_dollar_flows (data : IOData) (threshold : ℚ) : DollarResult :=
  { flows := sort_flows (dollar_flows_raw data threshold)
    accounts := (List.range data.n).map fun j => (j, dollar_account data j) }

/-! ## `calculate_factor_flows` -/

/-- `dollar_flow_matrix[i, j] = A[i, j] * x[j]` (raw currency units). -/
def dollar_flow_matrix (data : IOData) (i j : ℕ) : ℚ :=
  data.A i j * data.x j

/-- A sector's factor account (`sector_accounts[t]` in `calculate_factor_flows`). -/
structure FactorAccount where
  direct_factor : ℚ
  embodied_in_inputs : ℚ
  total_factor_output : ℚ
  total_multiplier : ℚ
  factor_to_intermediates : ℚ
  factor_to_final_demand : ℚ
  total_factor_out : ℚ
deriving DecidableEq

/-- The factor account of sector `t` for direct-intensity row `d`, total
multiplier row `n_total` and scale factor `scale`; each field stored
`round(·, 6)`. The `final_demand_dollars >= 0` test selects between the
proportional split and the negative-final-demand policy. -/
def factor_account (data : IOData) (d n_total : ℕ → ℚ) (scale : ℚ) (t : ℕ) :
    FactorAccount :=
  let direct_factor := d t * data.x t * scale
  let embodied_in_inputs :=
    ∑ i ∈ Finset.range data.n, n_total i * dollar_flow_matrix data i t * scale
  let total_factor_output := n_total t * data.x t * scale
  let intermediate_sales_dollars :=
    ∑ j ∈ Finset.range data.n, dollar_flow_matrix data t j
  let final_demand_dollars := data.x t - intermediate_sales_dollars
  let factor_to_intermediates :=
    if 0 ≤ final_demand_dollars then n_total t * intermediate_sales_dollars * scale
    else total_factor_output
  let factor_to_final_demand :=
    if 0 ≤ final_demand_dollars then n_total t * final_demand_dollars * scale
    else 0
  let total_factor_out := factor_to_intermediates + factor_to_final_demand
  { direct_factor := pyRound direct_factor 6
    embodied_in_inputs := pyRound embodied_in_inputs 6
    total_factor_output := pyRound total_factor_output 6
    total_multiplier := pyRound (n_total t * scale * 10 ^ 9) 6
    factor_to_intermediates := pyRound factor_to_intermediates 6
    factor_to_final_demand := pyRound factor_to_final_demand 6
    total_factor_out := pyRound total_factor_out 6 }

/-- `total_factor = Σ_i d[i] * x[i] * scale`, the economy-wide direct factor. -/
def total_factor (data : IOData) (d : ℕ → ℚ) (scale : ℚ) : ℚ :=
  ∑ i ∈ Finset.range data.n, d i * data.x i * scale

/-- The unsorted factor edge list: the double loop over `(i, j)` with
`i != j`, appending `{'from': i, 'to': j, 'value': round(value, 6)}`
whenever `value = n_total[i] * z_ij * scale >= threshold`. -/
def factor_flows_raw (data : IOData) (n_total : ℕ → ℚ) (scale threshold : ℚ) :
    List FlowEdge :=
  (List.range data.n).flatMap fun i =>
    ((List.range data.n).filter fun j =>
        decide (i ≠ j ∧ threshold ≤ n_total i * dollar_flow_matrix data i j * scale)).map
      fun j => ⟨i, j, pyRound (n_total i * dollar_flow_matrix data i j * scale) 6⟩

/-- `max_flows = 5000`, the truncation bound applied to factor flow lists. -/
def max_flows : ℕ := 5000

/-- Result of `calculate_factor_flows`: the flow list, the (unrounded)
total, the per-sector account mapping, and the printed diagnostics. -/
structure FactorResult where
  flows : List FlowEdge
  total : ℚ
  accounts : List (ℕ × FactorAccount)
  warnings : List Warning

/-- `calculate_factor_flows(data, indicator_name, indicator_config)`.
If the indicator is absent from `D` the function returns `([], 0, {})`
after printing a warning. If it is absent from `N`, `n_total` falls back
to the `D` row with a warning. Otherwise: build the accounts, collect the
off-diagonal factor flows at or above
`threshold = total_factor * threshold_pct`, sort descending, and keep the
first `max_flows` of them. -/
def calculate_factor_flows (data : IOData) (indicator_name : String)
    (cfg : IndicatorConfig) : FactorResult :=
  match data.D.lookup indicator_name with
  | none => ⟨[], 0, [], [Warning.notFoundInD]⟩
  | some d =>
    let nw : (ℕ → ℚ) × List Warning :=
      match data.N.lookup indicator_name with
      | none => (d, [Warning.notFoundInN])
      | some nrow => (nrow, [])
    let tf := total_factor data d cfg.scale
    let threshold := tf * cfg.threshold_pct
    { flows := (sort_flows (factor_flows_raw data nw.1 cfg.scale threshold)).take max_flows
      total := tf
      accounts := (List.range data.n).map fun t => (t, factor_account data d nw.1 cfg.scale t)
      warnings := nw.2 }

/-! ## `calculate_sector_totals` -/

/-- The `sector['factors']` mapping built by `calculate_sector_totals` for
the sector with index `idx`: one entry `code ↦ round(d[idx]*x[idx]*scale, 6)`
for each configured indicator whose display name is present in `D`. -/
def sector_factors (data : IOData) (idx : ℕ) : List (String × ℚ) :=
  KEY_INDICATORS.filterMap fun p =>
    match data.D.lookup p.1 with
    | some d => some (p.2.code, pyRound (d idx * data.x idx * p.2.scale) 6)
    | none => none

/-! ## `main`: the per-indicator flow-type record -/

/-- The fields of `flow_types[code]` relevant to the accounting core. -/
structure FlowType where
  total : ℚ
  top_flows : List FlowEdge

/-- The flow-type record `main` builds for one configured indicator:
`total` is the returned total rounded to 4 decimals, `top_flows` the
returned flow list. -/
def flow_type_entry (data : IOData) (name : String) (cfg : IndicatorConfig) :
    FlowType :=
  let r := calculate_factor_flows data name cfg
  ⟨pyRound r.total 4, r.flows⟩

/-! ## Helper lemmas on rounding -/

/-- Round-half-to-even is within 1/2 of its argument. -/
theorem roundHalfEven_sub_abs (z : ℚ) : |(roundHalfEven z : ℚ) - z| ≤ 1 / 2 := by
  have h1 : (⌊z⌋ : ℚ) ≤ z := Int.floor_le z
  have h2 : z < ⌊z⌋ + 1 := Int.lt_floor_add_one z
  unfold roundHalfEven
  split_ifs with ha hb hc <;>
    (rw [abs_le]; push_cast; constructor <;> linarith)

/-- `pyRound q k` is within half an ulp (`1 / (2 * 10 ^ k)`) of `q`. -/
theorem pyRound_sub_abs (q : ℚ) (k : ℕ) : |pyRound q k - q| ≤ 1 / (2 * 10 ^ k) := by
  have hpos : (0 : ℚ) < 10 ^ k := by positivity
  have h := roundHalfEven_sub_abs (q * 10 ^ k)
  have heq : pyRound q k - q =
      ((roundHalfEven (q * 10 ^ k) : ℚ) - q * 10 ^ k) / 10 ^ k := by
    rw [pyRound]; field_simp; ring
  rw [heq, abs_div, abs_of_pos hpos,
    show (1 : ℚ) / (2 * 10 ^ k) = (1 / 2) / 10 ^ k by ring]
  gcongr

/-- If `c = a + b` exactly, the rounded values satisfy the identity within
three half-ulps. -/
theorem pyRound_add_tol (a b c : ℚ) (k : ℕ) (h : c = a + b) :
    |pyRound a k + pyRound b k - pyRound c k| ≤ 3 / (2 * 10 ^ k) := by
  have ha := pyRound_sub_abs a k
  have hb := pyRound_sub_abs b k
  have hc := pyRound_sub_abs c k
  have heq : pyRound a k + pyRound b k - pyRound c k =
      (pyRound a k - a) + (pyRound b k - b) - (pyRound c k - c) := by
    rw [h]; ring
  have hhalf : (0:ℚ) < 10 ^ k := by positivity
  rw [heq, abs_le]
  rw [abs_le] at ha hb hc
  constructor <;> · obtain ⟨ha1, ha2⟩ := ha; obtain ⟨hb1, hb2⟩ := hb
                    obtain ⟨hc1, hc2⟩ := hc
                    rw [show (3:ℚ) / (2 * 10 ^ k) =
                      1 / (2 * 10 ^ k) + 1 / (2 * 10 ^ k) + 1 / (2 * 10 ^ k) by ring] at *
                    linarith

/-- Rounding zero gives zero. -/
theorem pyRound_zero (k : ℕ) : pyRound 0 k = 0 := by
  have : roundHalfEven 0 = 0 := by norm_num [roundHalfEven]
  simp [pyRound, this]

/-- Membership in an index-tagged `map` over `List.range` determines the value. -/
theorem mem_range_map {β : Type} {n j : ℕ} {f : ℕ → β} {b : β}
    (h : (j, b) ∈ (List.range n).map fun t => (t, f t)) : b = f j := by
  simp only [List.mem_map, Prod.mk.injEq] at h
  obtain ⟨a, -, h1, h2⟩ := h
  subst h1
  exact h2.symm

/-! ## Unfolding lemmas for the account builders -/

/-- `dollar_account` written out field by field. -/
theorem dollar_account_def (data : IOData) (j : ℕ) :
    dollar_account data j =
      { total_output := pyRound (data.x j / 10 ^ 9) 4
        intermediate_inputs :=
          pyRound (∑ i ∈ Finset.range data.n, all_flows_matrix data i j) 4
        intermediate_sales :=
          pyRound (∑ k ∈ Finset.range data.n, all_flows_matrix data j k) 4
        value_added :=
          pyRound (data.x j / 10 ^ 9 -
            ∑ i ∈ Finset.range data.n, all_flows_matrix data i j) 4
        final_demand :=
          pyRound (data.x j / 10 ^ 9 -
            ∑ k ∈ Finset.range data.n, all_flows_matrix data j k) 4 } := rfl

/-- `factor_account` written out field by field, the branch on
`final_demand_dollars >= 0` made explicit. -/
theorem factor_account_def (data : IOData) (d n_total : ℕ → ℚ) (scale : ℚ)
    (t : ℕ) :
    factor_account data d n_total scale t =
      { direct_factor := pyRound (d t * data.x t * scale) 6
        embodied_in_inputs :=
          pyRound (∑ i ∈ Finset.range data.n,
            n_total i * dollar_flow_matrix data i t * scale) 6
        total_factor_output := pyRound (n_total t * data.x t * scale) 6
        total_multiplier := pyRound (n_total t * scale * 10 ^ 9) 6
        factor_to_intermediates :=
          pyRound (if 0 ≤ data.x t - ∑ j ∈ Finset.range data.n, dollar_flow_matrix data t j
            then n_total t * (∑ j ∈ Finset.range data.n, dollar_flow_matrix data t j) * scale
            else n_total t * data.x t * scale) 6
        factor_to_final_demand :=
          pyRound (if 0 ≤ data.x t - ∑ j ∈ Finset.range data.n, dollar_flow_matrix data t j
            then n_total t * (data.x t - ∑ j ∈ Finset.range data.n, dollar_flow_matrix data t j) * scale
            else 0) 6
        total_factor_out :=
          pyRound
            ((if 0 ≤ data.x t - ∑ j ∈ Finset.range data.n, dollar_flow_matrix data t j
              then n_total t * (∑ j ∈ Finset.range data.n, dollar_flow_matrix data t j) * scale
              else n_total t * data.x t * scale) +
             (if 0 ≤ data.x t - ∑ j ∈ Finset.range data.n, dollar_flow_matrix data t j
              then n_total t * (data.x t - ∑ j ∈ Finset.range data.n, dollar_flow_matrix data t j) * scale
              else 0)) 6 } := rfl

/-- With the indicator present in both `D` and `N`, the accounts produced by
`calculate_factor_flows` are the per-sector `factor_account`s. -/
theorem calculate_factor_flows_accounts (data : IOData) (name : String)
    (cfg : IndicatorConfig) (d nrow : ℕ → ℚ)
    (hD : data.D.lookup name = some d) (hN : data.N.lookup name = some nrow) :
    (calculate_factor_flows data name cfg).accounts =
      (List.range data.n).map fun t => (t, factor_account data d nrow cfg.scale t) := by
  simp only [calculate_factor_flows, hD, hN]

/-- An index below `n` yields a member of the account list. -/
theorem mem_accounts_of_lt {β : Type} {n t : ℕ} {f : ℕ → β} (h : t < n) :
    (t, f t) ∈ (List.range n).map fun s => (s, f s) :=
  List.mem_map_of_mem _ (List.mem_range.mpr h)

/-! ## Witness datasets -/

/-- Direct-intensity row of the witness dataset. -/
def wRowD : ℕ → ℚ := fun t => if t = 0 then 2 else 1

/-- Total-multiplier row of the witness dataset; equals `wRowD · L` for the
witness `A` matrix, so the `N = D·L` identity holds exactly. -/
def wRowN : ℕ → ℚ := fun t => if t = 0 then 2 else 7 / 5

/-- A two-sector dataset with `A = [[0, 1/5], [0, 0]]`,
`x = [1e9, 2e9]`, and consistent `D`/`N` rows for "Greenhouse Gases". -/
def wData : IOData where
  n := 2
  A := fun i j => if i = 0 ∧ j = 1 then 1 / 5 else 0
  x := fun j => if j = 0 then 10 ^ 9 else 2 * 10 ^ 9
  D := [("Greenhouse Gases", wRowD)]
  N := [("Greenhouse Gases", wRowN)]

/-- The "Greenhouse Gases" configuration entry. -/
def cfgGHG : IndicatorConfig := ⟨"GHG", 1 / 10 ^ 9, 1 / 10 ^ 4⟩

/-! ## C2: dollar accounting identity -/

/-- **C2.** For every sector `j`, the dollar account computed by
`calculate_dollar_flows` satisfies
`intermediate_inputs + value_added == total_output` and
`intermediate_sales + final_demand == total_output` within floating-point
tolerance: with the stored values rounded to 4 decimals, each identity
holds up to three half-ulps, `3 / (2 * 10 ^ 4)`. -/
theorem dollar_accounting_identity (data : IOData) (threshold : ℚ) (j : ℕ)
    (acct : DollarAccount)
    (hmem : (j, acct) ∈ (calculate_dollar_flows data threshold).accounts) :
    |acct.intermediate_inputs + acct.value_added - acct.total_output| ≤ 3 / (2 * 10 ^ 4) ∧
    |acct.intermediate_sales + acct.final_demand - acct.total_output| ≤ 3 / (2 * 10 ^ 4) := by
  have hacct : acct = dollar_account data j := mem_range_map hmem
  subst hacct
  rw [dollar_account_def]
  exact ⟨pyRound_add_tol _ _ _ 4 (by ring), pyRound_add_tol _ _ _ 4 (by ring)⟩

/-- Witness for C2 at sector 0 of the concrete dataset `wData`. -/
theorem dollar_accounting_identity_witness :
    |(dollar_account wData 0).intermediate_inputs + (dollar_account wData 0).value_added -
        (dollar_account wData 0).total_output| ≤ 3 / (2 * 10 ^ 4) ∧
    |(dollar_account wData 0).intermediate_sales + (dollar_account wData 0).final_demand -
        (dollar_account wData 0).total_output| ≤ 3 / (2 * 10 ^ 4) :=
  dollar_accounting_identity wData (1 / 10) 0 (dollar_account wData 0)
    (mem_accounts_of_lt (by norm_num [wData]))

/-! ## C3: negative-final-demand policy -/

/-- **C3.** For a sector `t` whose intermediate sales exceed its output
(`final_demand_dollars < 0`), `calculate_factor_flows` sets
`factor_to_final_demand` to exactly 0 and `factor_to_intermediates` to
exactly `total_factor_output` (`= N[t]·x[t]·scale`); in the other branch
(`final_demand_dollars ≥ 0`) it sets
`factor_to_intermediates = N[t]·intermediate_sales_dollars·scale` and
`factor_to_final_demand = N[t]·final_demand_dollars·scale`. -/
theorem negative_final_demand_policy (data : IOData) (name : String)
    (cfg : IndicatorConfig) (d nrow : ℕ → ℚ) (t : ℕ) (acct : FactorAccount)
    (hD : data.D.lookup name = some d) (hN : data.N.lookup name = some nrow)
    (hmem : (t, acct) ∈ (calculate_factor_flows data name cfg).accounts) :
    (data.x t < ∑ j ∈ Finset.range data.n, dollar_flow_matrix data t j →
      acct.factor_to_final_demand = 0 ∧
      acct.factor_to_intermediates = acct.total_factor_output ∧
      acct.total_factor_output = pyRound (nrow t * data.x t * cfg.scale) 6) ∧
    (∑ j ∈ Finset.range data.n, dollar_flow_matrix data t j ≤ data.x t →
      acct.factor_to_intermediates =
        pyRound (nrow t * (∑ j ∈ Finset.range data.n, dollar_flow_matrix data t j) * cfg.scale) 6 ∧
      acct.factor_to_final_demand =
        pyRound (nrow t * (data.x t - ∑ j ∈ Finset.range data.n, dollar_flow_matrix data t j) * cfg.scale) 6) := by
  rw [calculate_factor_flows_accounts data name cfg d nrow hD hN] at hmem
  have hacct : acct = factor_account data d nrow cfg.scale t := mem_range_map hmem
  subst hacct
  rw [factor_account_def]
  constructor
  · intro h
    have hneg : ¬ (0 ≤ data.x t - ∑ j ∈ Finset.range data.n, dollar_flow_matrix data t j) := by
      intro h0; linarith
    refine ⟨?_, ?_, ?_⟩ <;> simp only [if_neg hneg, pyRound_zero]
  · intro h
    have hpos : 0 ≤ data.x t - ∑ j ∈ Finset.range data.n, dollar_flow_matrix data t j := by
      linarith
    constructor <;> simp only [if_pos hpos]

/-- A dataset whose sector 0 has intermediate sales exceeding its output
(`A[0,1] = 1`, so sector 0 sells 2e9 but produces 1e9). -/
def wDataNeg : IOData where
  n := 2
  A := fun i j => if i = 0 ∧ j = 1 then 1 else 0
  x := fun j => if j = 0 then 10 ^ 9 else 2 * 10 ^ 9
  D := [("Greenhouse Gases", wRowD)]
  N := [("Greenhouse Gases", wRowN)]

/-- Witness for C3: sector 0 of `wDataNeg` is in the negative-final-demand
branch and receives the policy values. -/
theorem negative_final_demand_policy_witness :
    (factor_account wDataNeg wRowD wRowN cfgGHG.scale 0).factor_to_final_demand = 0 ∧
    (factor_account wDataNeg wRowD wRowN cfgGHG.scale 0).factor_to_intermediates =
      (factor_account wDataNeg wRowD wRowN cfgGHG.scale 0).total_factor_output :=
  have h := negative_final_demand_policy wDataNeg "Greenhouse Gases" cfgGHG wRowD wRowN 0
    (factor_account wDataNeg wRowD wRowN cfgGHG.scale 0) rfl rfl
    (by rw [calculate_factor_flows_accounts wDataNeg "Greenhouse Gases" cfgGHG wRowD wRowN rfl rfl]
        exact mem_accounts_of_lt (by norm_num [wDataNeg]))
  ⟨(h.1 (by norm_num [wDataNeg, dollar_flow_matrix, Finset.sum_range_succ])).1,
   (h.1 (by norm_num [wDataNeg, dollar_flow_matrix, Finset.sum_range_succ])).2.1⟩

/-! ## C1: factor balance -/

/-- **C1.** For every sector `t` of an indicator present in `D` and `N`,
under the `N = D·L` row identity
`N[t]·x[t] = D[t]·x[t] + Σ_i N[i]·A[i,t]·x[t]`, the account computed by
`calculate_factor_flows` satisfies
`direct_factor + embodied_in_inputs == total_factor_output` and
`factor_to_intermediates + factor_to_final_demand == total_factor_out`
within floating-point tolerance: with the stored values rounded to
6 decimals, each identity holds up to three half-ulps `3 / (2 * 10 ^ 6)`. -/
theorem factor_balance (data : IOData) (name : String) (cfg : IndicatorConfig)
    (d nrow : ℕ → ℚ) (t : ℕ) (acct : FactorAccount)
    (hD : data.D.lookup name = some d) (hN : data.N.lookup name = some nrow)
    (hmem : (t, acct) ∈ (calculate_factor_flows data name cfg).accounts)
    (hNDL : nrow t * data.x t =
      d t * data.x t + ∑ i ∈ Finset.range data.n, nrow i * data.A i t * data.x t) :
    |acct.direct_factor + acct.embodied_in_inputs - acct.total_factor_output| ≤ 3 / (2 * 10 ^ 6) ∧
    |acct.factor_to_intermediates + acct.factor_to_final_demand - acct.total_factor_out| ≤
      3 / (2 * 10 ^ 6) := by
  rw [calculate_factor_flows_accounts data name cfg d nrow hD hN] at hmem
  have hacct : acct = factor_account data d nrow cfg.scale t := mem_range_map hmem
  subst hacct
  rw [factor_account_def]
  constructor
  · refine pyRound_add_tol _ _ _ 6 ?_
    calc nrow t * data.x t * cfg.scale
        = (d t * data.x t +
            ∑ i ∈ Finset.range data.n, nrow i * data.A i t * data.x t) * cfg.scale := by
          rw [hNDL]
      _ = d t * data.x t * cfg.scale +
          ∑ i ∈ Finset.range data.n, nrow i * dollar_flow_matrix data i t * cfg.scale := by
          rw [add_mul, Finset.sum_mul]
          congr 1
          refine Finset.sum_congr rfl fun i _ => ?_
          simp only [dollar_flow_matrix]
          ring
  · exact pyRound_add_tol _ _ _ 6 rfl

/-- Witness for C1 at sector 1 of `wData`, where the `N = D·L` row identity
holds exactly. -/
theorem factor_balance_witness :
    |(factor_account wData wRowD wRowN cfgGHG.scale 1).direct_factor +
        (factor_account wData wRowD wRowN cfgGHG.scale 1).embodied_in_inputs -
        (factor_account wData wRowD wRowN cfgGHG.scale 1).total_factor_output| ≤
      3 / (2 * 10 ^ 6) ∧
    |(factor_account wData wRowD wRowN cfgGHG.scale 1).factor_to_intermediates +
        (factor_account wData wRowD wRowN cfgGHG.scale 1).factor_to_final_demand -
        (factor_account wData wRowD wRowN cfgGHG.scale 1).total_factor_out| ≤
      3 / (2 * 10 ^ 6) :=
  factor_balance wData "Greenhouse Gases" cfgGHG wRowD wRowN 1
    (factor_account wData wRowD wRowN cfgGHG.scale 1) rfl rfl
    (by rw [calculate_factor_flows_accounts wData "Greenhouse Gases" cfgGHG wRowD wRowN rfl rfl]
        exact mem_accounts_of_lt (by norm_num [wData]))
    (by norm_num [wData, wRowD, wRowN, Finset.sum_range_succ])

/-! ## Membership in the raw edge lists -/

/-- An edge is collected by the dollar double loop iff it is an in-range
pair whose (billions) value meets the threshold. -/
theorem mem_dollar_flows_raw {data : IOData} {threshold : ℚ} {e : FlowEdge} :
    e ∈ dollar_flows_raw data threshold ↔
      ∃ i j, i < data.n ∧ j < data.n ∧
        threshold ≤ all_flows_matrix data i j ∧
        e = ⟨i, j, pyRound (all_flows_matrix data i j) 3⟩ := by
  simp only [dollar_flows_raw, List.mem_flatMap, List.mem_map, List.mem_filter,
    List.mem_range, decide_eq_true_eq]
  constructor
  · rintro ⟨i, hi, j, ⟨hj, hthr⟩, rfl⟩
    exact ⟨i, j, hi, hj, hthr, rfl⟩
  · rintro ⟨i, j, hi, hj, hthr, rfl⟩
    exact ⟨i, hi, j, ⟨hj, hthr⟩, rfl⟩

/-- An edge is collected by the factor double loop iff it is an in-range
off-diagonal pair whose value meets the threshold. -/
theorem mem_factor_flows_raw {data : IOData} {n_total : ℕ → ℚ}
    {scale threshold : ℚ} {e : FlowEdge} :
    e ∈ factor_flows_raw data n_total scale threshold ↔
      ∃ i j, i < data.n ∧ j < data.n ∧ i ≠ j ∧
        threshold ≤ n_total i * dollar_flow_matrix data i j * scale ∧
        e = ⟨i, j, pyRound (n_total i * dollar_flow_matrix data i j * scale) 6⟩ := by
  simp only [factor_flows_raw, List.mem_flatMap, List.mem_map, List.mem_filter,
    List.mem_range, decide_eq_true_eq]
  constructor
  · rintro ⟨i, hi, j, ⟨hj, hij, hthr⟩, rfl⟩
    exact ⟨i, j, hi, hj, hij, hthr, rfl⟩
  · rintro ⟨i, j, hi, hj, hij, hthr, rfl⟩
    exact ⟨i, hi, j, ⟨hj, hij, hthr⟩, rfl⟩

/-! ## C8: missing-indicator handling -/

/-- **C8.** If the indicator's display name is absent from `D`,
`calculate_factor_flows` returns empty flows, total 0 and an empty account
mapping, with the missing-in-D diagnostic. If the name is present in `D`
but absent from `N`, the computation proceeds with `n_total` set to the `D`
row — so every account's `embodied_in_inputs` is the direct-only
approximation `Σ_i D[i]·Z[i,t]·scale` — and the missing-in-N diagnostic is
emitted. -/
theorem missing_indicator_handling (data : IOData) (name : String)
    (cfg : IndicatorConfig) :
    (data.D.lookup name = none →
      calculate_factor_flows data name cfg =
        ⟨[], 0, [], [Warning.notFoundInD]⟩) ∧
    (∀ d, data.D.lookup name = some d → data.N.lookup name = none →
      (calculate_factor_flows data name cfg).warnings = [Warning.notFoundInN] ∧
      ∀ t acct, (t, acct) ∈ (calculate_factor_flows data name cfg).accounts →
        acct.embodied_in_inputs =
          pyRound (∑ i ∈ Finset.range data.n,
            d i * dollar_flow_matrix data i t * cfg.scale) 6) := by
  constructor
  · intro h
    simp only [calculate_factor_flows, h]
  · intro d hD hN
    constructor
    · simp only [calculate_factor_flows, hD, hN]
    · intro t acct hmem
      simp only [calculate_factor_flows, hD, hN] at hmem
      have hacct : acct = factor_account data d d cfg.scale t := mem_range_map hmem
      subst hacct
      rw [factor_account_def]

/-- `wData` with an empty total-multiplier table. -/
def wDataNoN : IOData where
  n := 2
  A := fun i j => if i = 0 ∧ j = 1 then 1 / 5 else 0
  x := fun j => if j = 0 then 10 ^ 9 else 2 * 10 ^ 9
  D := [("Greenhouse Gases", wRowD)]
  N := []

/-- Witness for C8: the D-missing branch on `wData` (no "Energy Use" row)
and the N-missing branch on `wDataNoN`. -/
theorem missing_indicator_handling_witness :
    calculate_factor_flows wData "Energy Use" cfgGHG =
      ⟨[], 0, [], [Warning.notFoundInD]⟩ ∧
    (calculate_factor_flows wDataNoN "Greenhouse Gases" cfgGHG).warnings =
      [Warning.notFoundInN] ∧
    (factor_account wDataNoN wRowD wRowD cfgGHG.scale 0).embodied_in_inputs =
      pyRound (∑ i ∈ Finset.range wDataNoN.n,
        wRowD i * dollar_flow_matrix wDataNoN i 0 * cfgGHG.scale) 6 :=
  have h := missing_indicator_handling wDataNoN "Greenhouse Gases" cfgGHG
  ⟨(missing_indicator_handling wData "Energy Use" cfgGHG).1 rfl,
   (h.2 wRowD rfl rfl).1,
   (h.2 wRowD rfl rfl).2 0 (factor_account wDataNoN wRowD wRowD cfgGHG.scale 0)
     (by simp only [calculate_factor_flows]
         exact mem_accounts_of_lt (by norm_num [wDataNoN]))⟩

/-! ## C10: sector factors keys -/

/-- The configured indicator codes are pairwise distinct. -/
theorem key_indicator_codes_nodup : (KEY_INDICATORS.map fun p => p.2.code).Nodup := by
  decide

/-- **C10.** For every sector index, the `factors` mapping built by
`calculate_sector_totals` contains a key for a configured indicator's code
iff that indicator's display name is present in `D`; indicators absent
from `D` contribute no entry at all. -/
theorem sector_factors_key_iff (data : IOData) (idx : ℕ) (name : String)
    (cfg : IndicatorConfig) (hmem : (name, cfg) ∈ KEY_INDICATORS) :
    (∃ v, (cfg.code, v) ∈ sector_factors data idx) ↔
      (data.D.lookup name).isSome := by
  constructor
  · rintro ⟨v, hv⟩
    simp only [sector_factors, List.mem_filterMap] at hv
    obtain ⟨p, hp, hmatch⟩ := hv
    cases hL : data.D.lookup p.1 with
    | none => rw [hL] at hmatch; simp at hmatch
    | some dp =>
      rw [hL] at hmatch
      simp only [Option.some.injEq, Prod.mk.injEq] at hmatch
      have hcode : p.2.code = cfg.code := hmatch.1
      have hpq : p = (name, cfg) :=
        List.inj_on_of_nodup_map key_indicator_codes_nodup hp hmem hcode
      rw [hpq] at hL
      rw [hL]
      rfl
  · intro h
    obtain ⟨dp, hdp⟩ := Option.isSome_iff_exists.mp h
    refine ⟨pyRound (dp idx * data.x idx * cfg.scale) 6, ?_⟩
    refine List.mem_filterMap.mpr ⟨(name, cfg), hmem, ?_⟩
    rw [hdp]

/-- Witness for C10 on `wData`: the GHG code is a key and the GHG row is
present in `D`. -/
theorem sector_factors_key_iff_witness :
    (∃ v, ("GHG", v) ∈ sector_factors wData 0) ↔
      (wData.D.lookup "Greenhouse Gases").isSome :=
  sector_factors_key_iff wData 0 "Greenhouse Gases" ⟨"GHG", 1 / 10 ^ 9, 1 / 10 ^ 4⟩
    (List.mem_cons_self _ _)

/-! ## Sorting infrastructure -/

/-- `flowLe` is transitive. -/
theorem flowLe_trans : ∀ a b c : FlowEdge, flowLe a b → flowLe b c → flowLe a c := by
  intro a b c
  simp only [flowLe, decide_eq_true_eq]
  exact fun h1 h2 => le_trans h2 h1

/-- `flowLe` is total. -/
theorem flowLe_total : ∀ a b : FlowEdge, flowLe a b || flowLe b a := by
  intro a b
  simp only [flowLe, Bool.or_eq_true, decide_eq_true_eq]
  exact le_total b.value a.value

/-- A sorted flow list is non-increasing in `value`. -/
theorem sort_flows_pairwise (l : List FlowEdge) :
    (sort_flows l).Pairwise fun a b => b.value ≤ a.value := by
  have h := List.sorted_mergeSort flowLe_trans flowLe_total l
  exact h.imp fun hab => by simpa [flowLe] using hab

/-- `length` as a sum of inner lengths for `flatMap`. -/
theorem length_flatMap_eq {α β : Type} (l : List α) (f : α → List β) :
    (l.flatMap f).length = (l.map fun a => (f a).length).sum := by
  rw [List.flatMap_def, List.length_flatten, List.map_map]
  rfl

/-! ## C7: sort order and tie stability -/

/-- **C7.** Every indicator's `top_flows` list is non-increasing in `value`,
and the sort is stable: two edges with equal value that occur in encounter
order in the collected list occur in the same order after sorting (for the
dollar list, and for `sort_flows` — hence the factor lists — in general). -/
theorem sort_order_and_stability (data : IOData) (name : String)
    (cfg : IndicatorConfig) (threshold : ℚ) :
    ((calculate_dollar_flows data threshold).flows.Pairwise fun a b => b.value ≤ a.value) ∧
    ((calculate_factor_flows data name cfg).flows.Pairwise fun a b => b.value ≤ a.value) ∧
    (∀ a b : FlowEdge, a.value = b.value →
      List.Sublist [a, b] (dollar_flows_raw data threshold) →
      List.Sublist [a, b] (calculate_dollar_flows data threshold).flows) ∧
    (∀ l : List FlowEdge, ∀ a b : FlowEdge, a.value = b.value →
      List.Sublist [a, b] l → List.Sublist [a, b] (sort_flows l)) := by
  refine ⟨sort_flows_pairwise _, ?_, ?_, ?_⟩
  · rcases hD : data.D.lookup name with _ | d
    · simp only [calculate_factor_flows, hD]
      exact List.Pairwise.nil
    · rcases hN : data.N.lookup name with _ | nrow <;>
        · simp only [calculate_factor_flows, hD, hN]
          exact (sort_flows_pairwise _).sublist (List.take_sublist _ _)
  · intro a b hv hsub
    exact List.pair_sublist_mergeSort flowLe_trans flowLe_total
      (by simp [flowLe, hv]) hsub
  · intro l a b hv hsub
    exact List.pair_sublist_mergeSort flowLe_trans flowLe_total
      (by simp [flowLe, hv]) hsub

/-- A two-sector dataset with two equal-valued dollar edges (0,1) and (1,0). -/
def wDataTie : IOData where
  n := 2
  A := fun i j => if i = j then 0 else 1 / 5
  x := fun _ => 10 ^ 9
  D := [("Greenhouse Gases", fun _ => 1)]
  N := [("Greenhouse Gases", fun _ => 1)]

/-- The collected dollar edges of `wDataTie` at threshold 0.1, in
row-major encounter order. -/
theorem wDataTie_raw :
    dollar_flows_raw wDataTie (1 / 10) =
      [⟨0, 1, pyRound (1 / 5) 3⟩, ⟨1, 0, pyRound (1 / 5) 3⟩] := by
  have h00 : all_flows_matrix wDataTie 0 0 = 0 := by
    norm_num [all_flows_matrix, wDataTie]
  have h11 : all_flows_matrix wDataTie 1 1 = 0 := by
    norm_num [all_flows_matrix, wDataTie]
  have h01 : all_flows_matrix wDataTie 0 1 = 1 / 5 := by
    norm_num [all_flows_matrix, wDataTie]
  have h10 : all_flows_matrix wDataTie 1 0 = 1 / 5 := by
    norm_num [all_flows_matrix, wDataTie]
  rw [dollar_flows_raw]
  rw [show wDataTie.n = 2 from rfl, show List.range 2 = [0, 1] from rfl]
  simp only [List.flatMap_cons, List.flatMap_nil, List.filter_cons, List.filter_nil,
    h00, h01, h10, h11, List.map_cons, List.map_nil, List.append_nil, List.nil_append]
  norm_num
  exact ⟨by rw [h01], by rw [h10]⟩

/-- Witness for C7: the two tied edges of `wDataTie` keep their encounter
order in the sorted dollar flow list. -/
theorem sort_order_and_stability_witness :
    List.Sublist [⟨0, 1, pyRound (1 / 5) 3⟩, ⟨1, 0, pyRound (1 / 5) 3⟩]
      (calculate_dollar_flows wDataTie (1 / 10)).flows :=
  (sort_order_and_stability wDataTie "Greenhouse Gases" cfgGHG (1 / 10)).2.2.1
    ⟨0, 1, pyRound (1 / 5) 3⟩ ⟨1, 0, pyRound (1 / 5) 3⟩ rfl
    (wDataTie_raw ▸ List.Sublist.refl _)

/-! ## C5: self-loop policy -/

/-- **C5.** No edge of any factor indicator's `top_flows` is a self-loop,
while the dollar flow list retains the diagonal pair `(i, i)` whenever its
value meets the threshold. -/
theorem self_loop_policy (data : IOData) (name : String) (cfg : IndicatorConfig)
    (threshold : ℚ) :
    (∀ e ∈ (calculate_factor_flows data name cfg).flows, e.fromId ≠ e.toId) ∧
    (∀ i, i < data.n → threshold ≤ all_flows_matrix data i i →
      (⟨i, i, pyRound (all_flows_matrix data i i) 3⟩ : FlowEdge) ∈
        (calculate_dollar_flows data threshold).flows) := by
  constructor
  · intro e he
    rcases hD : data.D.lookup name with _ | d
    · simp only [calculate_factor_flows, hD] at he
      cases he
    · rcases hN : data.N.lookup name with _ | nrow <;>
        · simp only [calculate_factor_flows, hD, hN] at he
          have h2 := List.mem_of_mem_take he
          rw [sort_flows, List.mem_mergeSort, mem_factor_flows_raw] at h2
          obtain ⟨i, j, hi, hj, hij, -, rfl⟩ := h2
          exact hij
  · intro i hi hthr
    show _ ∈ sort_flows _
    rw [sort_flows, List.mem_mergeSort, mem_dollar_flows_raw]
    exact ⟨i, i, hi, hi, hthr, rfl⟩

/-- A one-sector dataset whose only dollar flow is the self-loop (0,0). -/
def wDataSelf : IOData where
  n := 1
  A := fun _ _ => 1 / 5
  x := fun _ => 10 ^ 9
  D := [("Greenhouse Gases", wRowD)]
  N := [("Greenhouse Gases", wRowN)]

/-- Witness for C5: the self-loop (0,0) of `wDataSelf` is retained in the
dollar flow list. -/
theorem self_loop_policy_witness :
    (⟨0, 0, pyRound (all_flows_matrix wDataSelf 0 0) 3⟩ : FlowEdge) ∈
      (calculate_dollar_flows wDataSelf (1 / 10)).flows :=
  (self_loop_policy wDataSelf "Greenhouse Gases" cfgGHG (1 / 10)).2 0
    (by norm_num [wDataSelf]) (by norm_num [wDataSelf, all_flows_matrix])

/-! ## C6: threshold monotonicity -/

/-- Raising the absolute threshold never lengthens the collected edge list. -/
theorem factor_flows_raw_length_mono (data : IOData) (nt : ℕ → ℚ)
    (scale t1 t2 : ℚ) (h : t1 ≤ t2) :
    (factor_flows_raw data nt scale t2).length ≤
      (factor_flows_raw data nt scale t1).length := by
  unfold factor_flows_raw
  rw [length_flatMap_eq, length_flatMap_eq]
  apply List.sum_le_sum
  intro i _
  rw [List.length_map, List.length_map,
    ← List.countP_eq_length_filter, ← List.countP_eq_length_filter]
  apply List.countP_mono_left
  intro j _
  simp only [decide_eq_true_eq]
  rintro ⟨hij, hv⟩
  exact ⟨hij, le_trans h hv⟩

/-- **C6.** For a fixed dataset and indicator (with nonnegative economy-wide
direct factor, as holds for well-formed data), raising `threshold_pct`
(all else equal) never increases the number of edges in `top_flows`. -/
theorem threshold_monotonicity (data : IOData) (name : String)
    (cfg1 cfg2 : IndicatorConfig) (d : ℕ → ℚ)
    (hD : data.D.lookup name = some d)
    (hscale : cfg1.scale = cfg2.scale)
    (hpct : cfg1.threshold_pct ≤ cfg2.threshold_pct)
    (htf : 0 ≤ total_factor data d cfg1.scale) :
    (calculate_factor_flows data name cfg2).flows.length ≤
      (calculate_factor_flows data name cfg1).flows.length := by
  have hmul : total_factor data d cfg1.scale * cfg1.threshold_pct ≤
      total_factor data d cfg1.scale * cfg2.threshold_pct :=
    mul_le_mul_of_nonneg_left hpct htf
  rcases hN : data.N.lookup name with _ | nrow <;>
    · simp only [calculate_factor_flows, hD, hN]
      rw [List.length_take, List.length_take, sort_flows, sort_flows,
        List.length_mergeSort, List.length_mergeSort, ← hscale]
      exact min_le_min le_rfl (factor_flows_raw_length_mono data _ _ _ _ hmul)

/-- A `cfgGHG` variant with a doubled threshold fraction. -/
def cfgGHG2 : IndicatorConfig := ⟨"GHG", 1 / 10 ^ 9, 2 / 10 ^ 4⟩

/-- Witness for C6 on `wData`: doubling the GHG threshold fraction does not
increase the edge count. -/
theorem threshold_monotonicity_witness :
    (calculate_factor_flows wData "Greenhouse Gases" cfgGHG2).flows.length ≤
      (calculate_factor_flows wData "Greenhouse Gases" cfgGHG).flows.length :=
  threshold_monotonicity wData "Greenhouse Gases" cfgGHG cfgGHG2 wRowD rfl rfl
    (by norm_num [cfgGHG, cfgGHG2])
    (by norm_num [total_factor, wData, wRowD, cfgGHG, Finset.sum_range_succ])

/-! ## C4: edge cap -/

/-- 71 sectors, every dollar flow equal to 1 billion: all 71² = 5041 pairs
pass the production threshold of 0.1 billion. -/
def bigData : IOData where
  n := 71
  A := fun _ _ => 1
  x := fun _ => 10 ^ 9
  D := []
  N := []

/-- **C4 as stated is false for the "dollars" indicator**:
`calculate_dollar_flows` applies no 5000-edge cap, and on `bigData` at the
production threshold 0.1 its flow list has 5041 > 5000 edges. -/
theorem dollar_flows_uncapped :
    5000 < (calculate_dollar_flows bigData (1 / 10)).flows.length := by
  have hfil : ∀ i : ℕ, ((List.range bigData.n).filter fun j =>
      decide ((1 : ℚ) / 10 ≤ all_flows_matrix bigData i j)) = List.range bigData.n := by
    intro i
    apply List.filter_eq_self.mpr
    intro j _
    rw [decide_eq_true_eq]
    norm_num [all_flows_matrix, bigData]
  have hlen : (calculate_dollar_flows bigData (1 / 10)).flows.length =
      (dollar_flows_raw bigData (1 / 10)).length := by
    simp [calculate_dollar_flows, sort_flows]
  rw [hlen, dollar_flows_raw]
  simp only [hfil]
  rw [length_flatMap_eq]
  simp only [List.length_map, List.length_range]
  rw [List.map_const', List.sum_replicate, smul_eq_mul]
  norm_num [bigData]

/-- In a sorted flow list, every element of the first `max_flows` entries
dominates every later entry. -/
theorem sorted_take_drop_dominance (l : List FlowEdge) :
    ∀ a ∈ (sort_flows l).take max_flows, ∀ b ∈ (sort_flows l).drop max_flows,
      b.value ≤ a.value := by
  have hpw := sort_flows_pairwise l
  rw [← List.take_append_drop max_flows (sort_flows l)] at hpw
  exact (List.pairwise_append.mp hpw).2.2

/-- **C4 (amended).** For every *factor* indicator, `top_flows` has at most
5000 edges and — whenever the indicator is present in `D`, with the
multiplier row falling back to the `D` row when absent from `N` — every
retained edge's value is at least every dropped edge's value (the cap
removes only the smallest tail of the sorted list); the "dollars" flow
list is thresholded and sorted but not capped (`dollar_flows_uncapped`). -/
theorem factor_edge_cap (data : IOData) (name : String) (cfg : IndicatorConfig) :
    (calculate_factor_flows data name cfg).flows.length ≤ 5000 ∧
    (∀ d, data.D.lookup name = some d →
      ∀ a ∈ (calculate_factor_flows data name cfg).flows,
      ∀ b ∈ (sort_flows (factor_flows_raw data ((data.N.lookup name).getD d) cfg.scale
          (total_factor data d cfg.scale * cfg.threshold_pct))).drop max_flows,
        b.value ≤ a.value) := by
  constructor
  · rcases hD : data.D.lookup name with _ | d
    · simp [calculate_factor_flows, hD]
    · rcases hN : data.N.lookup name with _ | nrow <;>
        · simp only [calculate_factor_flows, hD, hN]
          simp [max_flows]
  · intro d hD a ha b hb
    rcases hN : data.N.lookup name with _ | nrow
    · simp only [hN, Option.getD_none] at hb
      simp only [calculate_factor_flows, hD, hN] at ha
      exact sorted_take_drop_dominance _ a ha b hb
    · simp only [hN, Option.getD_some] at hb
      simp only [calculate_factor_flows, hD, hN] at ha
      exact sorted_take_drop_dominance _ a ha b hb

/-- Witness for the amended C4: on `wData` (N row present) and on
`wDataNoN` (N row absent, `n_total` fallback to the `D` row), at most 5000
GHG edges and every retained edge dominates every dropped edge. -/
theorem factor_edge_cap_witness :
    (calculate_factor_flows wData "Greenhouse Gases" cfgGHG).flows.length ≤ 5000 ∧
    (∀ a ∈ (calculate_factor_flows wData "Greenhouse Gases" cfgGHG).flows,
      ∀ b ∈ (sort_flows (factor_flows_raw wData
          ((wData.N.lookup "Greenhouse Gases").getD wRowD) cfgGHG.scale
          (total_factor wData wRowD cfgGHG.scale * cfgGHG.threshold_pct))).drop max_flows,
        b.value ≤ a.value) ∧
    (∀ a ∈ (calculate_factor_flows wDataNoN "Greenhouse Gases" cfgGHG).flows,
      ∀ b ∈ (sort_flows (factor_flows_raw wDataNoN
          ((wDataNoN.N.lookup "Greenhouse Gases").getD wRowD) cfgGHG.scale
          (total_factor wDataNoN wRowD cfgGHG.scale * cfgGHG.threshold_pct))).drop max_flows,
        b.value ≤ a.value) :=
  ⟨(factor_edge_cap wData "Greenhouse Gases" cfgGHG).1,
   (factor_edge_cap wData "Greenhouse Gases" cfgGHG).2 wRowD rfl,
   (factor_edge_cap wDataNoN "Greenhouse Gases" cfgGHG).2 wRowD rfl⟩

/-! ## C9: exported total and threshold -/

/-- **C9.** For every indicator present in `D`, the exported
`flow_types[code].total` equals `Σ_t D[t]·x[t]·scale` — the economy-wide
direct factor total, not the multiplier-based total — rounded to 4 decimal
places, and every retained edge's raw value is at least
`threshold_pct` times this same unrounded quantity (with the multiplier
row falling back to the `D` row when absent from `N`). -/
theorem flow_type_total_and_threshold (data : IOData) (name : String)
    (cfg : IndicatorConfig) (d : ℕ → ℚ)
    (hD : data.D.lookup name = some d) :
    (flow_type_entry data name cfg).total =
      pyRound (∑ t ∈ Finset.range data.n, d t * data.x t * cfg.scale) 4 ∧
    ∀ e ∈ (flow_type_entry data name cfg).top_flows,
      ∃ i j, i < data.n ∧ j < data.n ∧ i ≠ j ∧
        e = ⟨i, j, pyRound ((data.N.lookup name).getD d i *
          dollar_flow_matrix data i j * cfg.scale) 6⟩ ∧
        (∑ t ∈ Finset.range data.n, d t * data.x t * cfg.scale) * cfg.threshold_pct ≤
          (data.N.lookup name).getD d i * dollar_flow_matrix data i j * cfg.scale := by
  rcases hN : data.N.lookup name with _ | nrow <;>
    (constructor
     · simp only [flow_type_entry, calculate_factor_flows, hD, hN, total_factor]
     · intro e he
       simp only [flow_type_entry, calculate_factor_flows, hD, hN] at he
       have h2 := List.mem_of_mem_take he
       rw [sort_flows, List.mem_mergeSort, mem_factor_flows_raw] at h2
       obtain ⟨i, j, hi, hj, hij, hthr, rfl⟩ := h2
       rw [total_factor] at hthr
       exact ⟨i, j, hi, hj, hij, rfl, hthr⟩)

/-- Witness for C9 on `wData` with the GHG indicator. -/
theorem flow_type_total_and_threshold_witness :
    (flow_type_entry wData "Greenhouse Gases" cfgGHG).total =
      pyRound (∑ t ∈ Finset.range wData.n, wRowD t * wData.x t * cfgGHG.scale) 4 ∧
    ∀ e ∈ (flow_type_entry wData "Greenhouse Gases" cfgGHG).top_flows,
      ∃ i j, i < wData.n ∧ j < wData.n ∧ i ≠ j ∧
        e = ⟨i, j, pyRound ((wData.N.lookup "Greenhouse Gases").getD wRowD i *
          dollar_flow_matrix wData i j * cfgGHG.scale) 6⟩ ∧
        (∑ t ∈ Finset.range wData.n, wRowD t * wData.x t * cfgGHG.scale) *
            cfgGHG.threshold_pct ≤
          (wData.N.lookup "Greenhouse Gases").getD wRowD i *
            dollar_flow_matrix wData i j * cfgGHG.scale :=
  flow_type_total_and_threshold wData "Greenhouse Gases" cfgGHG wRowD rfl
